import Mathlib

/-!
Verification of the Fibonacci sequence generator
(`dev-opal/workspace/fibonacci.py`).

The Python source is:

```
def fibonacci(n):
    fib_list = []
    a, b = 0, 1
    while len(fib_list) < n:
        fib_list.append(a)
        a, b = b, a + b
    return fib_list
```

`n` is an arbitrary Python integer, so we model it as `Int`; the list
elements are likewise unbounded integers.  The `while` loop is embedded
as `fibonacciLoop`, a well-founded recursion on the measure
`(n - len(fib_list)).toNat`, which strictly decreases at every
iteration because each iteration appends exactly one element.
-/

/-- The body of the `while len(fib_list) < n` loop: the loop state is the
accumulated list `fib_list` and the running pair `(a, b)`.  Each iteration
appends `a` and advances `(a, b)` to `(b, a + b)`. -/
def fibonacciLoop (n : Int) (fib_list : List Int) (a b : Int) : List Int :=
  if (fib_list.length : Int) < n then
    fibonacciLoop n (fib_list ++ [a]) b (a + b)
  else
    fib_list
termination_by (n - fib_list.length).toNat
decreasing_by
  simp only [List.length_append, List.length_cons, List.length_nil]
  omega

/-- `fibonacci(n)`: start from the empty list with `(a, b) = (0, 1)` and run
the loop. -/
def fibonacci (n : Int) : List Int :=
  fibonacciLoop n [] 0 1

/-- Reference Fibonacci numbers, `F(0) = 0`, `F(1) = 1`,
`F(k+2) = F(k) + F(k+1)`. -/
def fibRef : Nat → Int
  | 0 => 0
  | 1 => 1
  | k + 2 => fibRef k + fibRef (k + 1)

/-- The list produced by `k` iterations of the pair-update loop starting
from the pair `(a, b)`. -/
def genList (a b : Int) : Nat → List Int
  | 0 => []
  | k + 1 => a :: genList b (a + b) k

lemma genList_length (a b : Int) (k : Nat) : (genList a b k).length = k := by
  induction k generalizing a b with
  | zero => rfl
  | succ k ih => simp [genList, ih]

/-- Unrolling the loop: `fibonacciLoop n l a b` appends exactly
`(n - l.length).toNat` generated elements to `l`. -/
lemma fibonacciLoop_eq_genList :
    ∀ (k : Nat) (n : Int) (l : List Int) (a b : Int),
      (n - l.length).toNat = k →
      fibonacciLoop n l a b = l ++ genList a b k := by
  intro k
  induction k with
  | zero =>
    intro n l a b hk
    rw [fibonacciLoop]
    have hnot : ¬ ((l.length : Int) < n) := by omega
    simp [hnot, genList]
  | succ k ih =>
    intro n l a b hk
    rw [fibonacciLoop]
    have hlt : (l.length : Int) < n := by omega
    rw [if_pos hlt, ih n (l ++ [a]) b (a + b) (by simp; omega)]
    simp [genList]

/-- `fibonacci n` is exactly `n.toNat` iterations of the loop from
`(0, 1)`. -/
lemma fibonacci_eq_genList (n : Int) : fibonacci n = genList 0 1 n.toNat := by
  have h := fibonacciLoop_eq_genList n.toNat n [] 0 1 (by simp)
  simpa [fibonacci] using h

/-- Starting the pair at `(F(m), F(m+1))`, `k` iterations produce the `k`
consecutive Fibonacci numbers `F(m), …, F(m+k-1)`. -/
lemma genList_fibRef :
    ∀ (k m : Nat),
      genList (fibRef m) (fibRef (m + 1)) k =
        (List.range k).map (fun i => fibRef (m + i)) := by
  intro k
  induction k with
  | zero => intro m; rfl
  | succ k ih =>
    intro m
    have hstep : fibRef m + fibRef (m + 1) = fibRef (m + 2) := rfl
    rw [genList, hstep]
    have h2 : m + 1 + 1 = m + 2 := rfl
    rw [show (m + 2 : Nat) = (m + 1) + 1 from rfl, ih (m + 1)]
    rw [List.range_succ_eq_map]
    simp [Function.comp]
    intro i _
    congr 1
    omega

/-- Master characterisation: `fibonacci n` is the list of the first
`n.toNat` reference Fibonacci numbers. -/
lemma fibonacci_eq_map_range (n : Int) :
    fibonacci n = (List.range n.toNat).map fibRef := by
  rw [fibonacci_eq_genList]
  have h := genList_fibRef n.toNat 0
  simpa using h

lemma fibonacci_length (n : Int) : (fibonacci n).length = n.toNat := by
  rw [fibonacci_eq_map_range]; simp

lemma fibonacci_getElem (n : Int) (i : Nat) (h : i < (fibonacci n).length) :
    (fibonacci n)[i] = fibRef i := by
  have hlen : i < n.toNat := by rwa [fibonacci_length] at h
  simp [fibonacci_eq_map_range, hlen]

lemma fibRef_nonneg : ∀ i : Nat, 0 ≤ fibRef i := by
  intro i
  induction i using Nat.strong_induction_on with
  | _ i ih =>
    match i with
    | 0 => simp [fibRef]
    | 1 => simp [fibRef]
    | k + 2 =>
      have h1 := ih k (by omega)
      have h2 := ih (k + 1) (by omega)
      simp only [fibRef]
      omega

lemma fibRef_mono (i : Nat) : fibRef i ≤ fibRef (i + 1) := by
  match i with
  | 0 => simp [fibRef]
  | k + 1 =>
    have h := fibRef_nonneg k
    show fibRef (k + 1) ≤ fibRef (k + 2)
    simp only [fibRef]
    omega

/-- Claim C1: for every integer `n ≥ 0` and every index `0 ≤ i < n`, the
`i`-th element of `fibonacci n` is the `i`-th Fibonacci number under the
convention `F(0) = 0`, `F(1) = 1`. -/
theorem claim_C1 (n : Int) (i : Nat) (hn : 0 ≤ n) (hi : (i : Int) < n) :
    (fibonacci n)[i]? = some (fibRef i) := by
  have hib : i < (fibonacci n).length := by
    have := fibonacci_length n
    omega
  rw [List.getElem?_eq_getElem hib, fibonacci_getElem n i hib]

/-- Witness for C1 at `n = 5`, `i = 3`. -/
theorem claim_C1_witness : (fibonacci 5)[3]? = some (fibRef 3) :=
  claim_C1 5 3 (by decide) (by decide)

/-- Claim C2: for every integer `n ≤ 0`, `fibonacci n` is the empty
sequence (no error is signalled: the function is total). -/
theorem claim_C2 (n : Int) (h : n ≤ 0) : fibonacci n = [] := by
  rw [fibonacci_eq_map_range]
  have h0 : n.toNat = 0 := by omega
  simp [h0]

/-- Witness for C2 at `n = -3`. -/
theorem claim_C2_witness : fibonacci (-3) = [] :=
  claim_C2 (-3) (by decide)

/-- Claim C3: for every integer `n ≥ 1`, `fibonacci n` has length exactly
`n`. -/
theorem claim_C3 (n : Int) (h : 1 ≤ n) : ((fibonacci n).length : Int) = n := by
  rw [fibonacci_length]
  omega

/-- Witness for C3 at `n = 4`. -/
theorem claim_C3_witness : (((fibonacci 4).length : Nat) : Int) = 4 :=
  claim_C3 4 (by decide)

/-- Claim C4: for every integer `n ≥ 2` and every valid index `i ≥ 2` of
the result, `fibonacci n` at `i` equals the sum of its elements at `i - 1`
and `i - 2`. -/
theorem claim_C4 (n : Int) (i : Nat) (hn : 2 ≤ n) (h2 : 2 ≤ i)
    (hi : (i : Int) < n) :
    (fibonacci n)[i]! = (fibonacci n)[i - 1]! + (fibonacci n)[i - 2]! := by
  have hlen := fibonacci_length n
  have hib : i < (fibonacci n).length := by omega
  have hib1 : i - 1 < (fibonacci n).length := by omega
  have hib2 : i - 2 < (fibonacci n).length := by omega
  rw [getElem!_pos (fibonacci n) i hib, getElem!_pos (fibonacci n) (i - 1) hib1,
    getElem!_pos (fibonacci n) (i - 2) hib2, fibonacci_getElem n i hib,
    fibonacci_getElem n (i - 1) hib1, fibonacci_getElem n (i - 2) hib2]
  obtain ⟨k, rfl⟩ : ∃ k, i = k + 2 := ⟨i - 2, by omega⟩
  show fibRef (k + 2) = fibRef (k + 1) + fibRef k
  simp only [fibRef]
  ring

/-- Witness for C4 at `n = 10`, `i = 4`. -/
theorem claim_C4_witness :
    (fibonacci 10)[4]! = (fibonacci 10)[3]! + (fibonacci 10)[2]! :=
  claim_C4 10 4 (by decide) (by decide) (by decide)

/-- Claim C5: the call terminates and returns normally — each loop
iteration appends exactly one element, the measure `n - len(fib_list)`
strictly decreases across an iteration, and the function is total over all
integer inputs, returning a list of the expected length. -/
theorem claim_C5 :
    (∀ (n a b : Int) (l : List Int), (l.length : Int) < n →
      fibonacciLoop n l a b = fibonacciLoop n (l ++ [a]) b (a + b) ∧
      (l ++ [a]).length = l.length + 1 ∧
      (n - ((l ++ [a]).length : Int)).toNat < (n - (l.length : Int)).toNat) ∧
    (∀ n : Int, (fibonacci n).length = n.toNat) := by
  constructor
  · intro n a b l h
    refine ⟨?_, by simp, ?_⟩
    · rw [fibonacciLoop]
      rw [if_pos h]
    · simp only [List.length_append, List.length_cons, List.length_nil]
      omega
  · exact fibonacci_length

/-- Witness for C5: one concrete loop iteration at `n = 2` from the empty
list. -/
theorem claim_C5_witness :
    fibonacciLoop 2 [] 0 1 = fibonacciLoop 2 ([] ++ [0]) 1 (0 + 1) ∧
    (([] : List Int) ++ [0]).length = ([] : List Int).length + 1 ∧
    ((2 : Int) - ((([] : List Int) ++ [0]).length : Int)).toNat <
      ((2 : Int) - ((([] : List Int).length : Nat) : Int)).toNat :=
  claim_C5.1 2 0 1 [] (by decide)

/-- Claim C6: the concrete sequences `fibonacci 1 = [0]`,
`fibonacci 2 = [0, 1]` and
`fibonacci 10 = [0, 1, 1, 2, 3, 5, 8, 13, 21, 34]`. -/
theorem claim_C6 :
    fibonacci 1 = [0] ∧ fibonacci 2 = [0, 1] ∧
    fibonacci 10 = [0, 1, 1, 2, 3, 5, 8, 13, 21, 34] := by
  refine ⟨?_, ?_, ?_⟩ <;> (rw [fibonacci_eq_map_range]; decide)

/-- Claim C7: `fibonacci` is deterministic — two calls with the same
argument yield identical sequences; the result depends on `n` alone. -/
theorem claim_C7 (n₁ n₂ : Int) (h : n₁ = n₂) : fibonacci n₁ = fibonacci n₂ := by
  rw [h]

/-- Witness for C7 at `n = 5`. -/
theorem claim_C7_witness : fibonacci 5 = fibonacci 5 :=
  claim_C7 5 5 rfl

/-- Claim C8: for all integers `0 ≤ m ≤ n`, the first `m` elements of
`fibonacci n` equal `fibonacci m`. -/
theorem claim_C8 (m n : Int) (h0 : 0 ≤ m) (hmn : m ≤ n) :
    (fibonacci n).take m.toNat = fibonacci m := by
  rw [fibonacci_eq_map_range, fibonacci_eq_map_range]
  have hmin : min m.toNat n.toNat = m.toNat := by omega
  rw [← List.map_take, List.take_range, hmin]

/-- Witness for C8 at `m = 3`, `n = 7`. -/
theorem claim_C8_witness : (fibonacci 7).take ((3 : Int)).toNat = fibonacci 3 :=
  claim_C8 3 7 (by decide) (by decide)

/-- Claim C9: every element of `fibonacci n` is non-negative and the
sequence is non-decreasing at every adjacent pair of indices. -/
theorem claim_C9 (n : Int) (i : Nat) (hi : (i : Int) < n) :
    0 ≤ (fibonacci n)[i]! ∧
      ((i : Int) + 1 < n → (fibonacci n)[i]! ≤ (fibonacci n)[i + 1]!) := by
  have hlen := fibonacci_length n
  have hib : i < (fibonacci n).length := by omega
  constructor
  · rw [getElem!_pos (fibonacci n) i hib, fibonacci_getElem n i hib]
    exact fibRef_nonneg i
  · intro h1
    have hib1 : i + 1 < (fibonacci n).length := by omega
    rw [getElem!_pos (fibonacci n) i hib, getElem!_pos (fibonacci n) (i + 1) hib1,
      fibonacci_getElem n i hib, fibonacci_getElem n (i + 1) hib1]
    exact fibRef_mono i

/-- Witness for C9 at `n = 6`, `i = 3`. -/
theorem claim_C9_witness :
    0 ≤ (fibonacci 6)[3]! ∧
      (((3 : Nat) : Int) + 1 < 6 → (fibonacci 6)[3]! ≤ (fibonacci 6)[4]!) :=
  claim_C9 6 3 (by decide)
